import Mathlib

/-!
Shallow embedding of the role-based authorization and data-scoping logic of
the TimeTracker storage layer (`server/storage.ts`, class `DatabaseStorage`)
over the Drizzle schema (`shared/schema.ts`).

Rows are modelled as Lean structures mirroring the table columns; the
database is a record of row lists.  Each storage method becomes a pure
function from the database state (plus the generated ids and the current
clock, which the source obtains from `gen_random_uuid()` / `new Date()`) to
a result and a new state.  A thrown `Error` is modelled as `Except.error`
carrying the exact message string thrown by the source; methods that cannot
throw keep their natural return type.  SQL `ORDER BY` on varchar columns is
modelled by a stable insertion sort over code-point order.
-/

namespace TimeTracker

/-- Code-point comparison of characters, used for varchar ordering. -/
def charLt (c d : Char) : Bool := c.toNat < d.toNat

/-- Lexicographic order on character lists by code point. -/
def strLeAux : List Char → List Char → Bool
  | [], _ => true
  | _ :: _, [] => false
  | c :: cs, d :: ds =>
    if charLt c d then true else if charLt d c then false else strLeAux cs ds

/-- Lexicographic order on strings, modelling varchar comparison in SQL
(`ORDER BY`, `gte`, `lte` on date strings in `YYYY-MM-DD` form). -/
def strLe (a b : String) : Bool := strLeAux a.data b.data

/-- Stable insertion of an element into a sorted list. -/
def insertOrd (le : α → α → Bool) (x : α) : List α → List α
  | [] => [x]
  | y :: ys => if le x y then x :: y :: ys else y :: insertOrd le x ys

/-- Stable insertion sort, modelling SQL `ORDER BY`. -/
def orderBy (le : α → α → Bool) : List α → List α
  | [] => []
  | x :: xs => insertOrd le x (orderBy le xs)

theorem mem_insertOrd (le : α → α → Bool) (x a : α) (l : List α) :
    a ∈ insertOrd le x l ↔ a = x ∨ a ∈ l := by
  induction l with
  | nil => simp [insertOrd]
  | cons y ys ih =>
    simp only [insertOrd]
    by_cases h : le x y = true
    · simp [h]
    · simp [h, ih]
      tauto

theorem mem_orderBy (le : α → α → Bool) (a : α) (l : List α) :
    a ∈ orderBy le l ↔ a ∈ l := by
  induction l with
  | nil => simp [orderBy]
  | cons x xs ih => simp [orderBy, mem_insertOrd, ih]

/-- Row of the `users` table (`shared/schema.ts`). -/
structure UserRow where
  id : String
  email : Option String := none
  firstName : Option String := none
  lastName : Option String := none
  profileImageUrl : Option String := none
  role : Option String := some "employee"
  isActive : Bool := true
  lastLoginAt : Option Nat := none
  createdAt : Nat := 0
  updatedAt : Nat := 0
deriving Repr, DecidableEq

/-- Row of the `projects` table (`shared/schema.ts`). -/
structure ProjectRow where
  id : String
  name : String
  projectNumber : Option String := none
  description : Option String := none
  color : String := "#1976D2"
  startDate : Option Nat := none
  endDate : Option Nat := none
  isEnterpriseWide : Bool := true
  userId : String
  createdAt : Nat := 0
  updatedAt : Nat := 0
deriving Repr, DecidableEq

/-- Row of the `tasks` table (`shared/schema.ts`). -/
structure TaskRow where
  id : String
  projectId : String
  name : String
  description : Option String := none
  status : String := "active"
  createdAt : Nat := 0
  updatedAt : Nat := 0
deriving Repr, DecidableEq

/-- Row of the `time_entries` table (`shared/schema.ts`).  Dates are
`YYYY-MM-DD` strings, times `HH:MM` strings and durations decimal strings,
exactly as stored by the source. -/
structure TimeEntryRow where
  id : String
  userId : String
  projectId : String
  taskId : Option String := none
  description : Option String := none
  date : String
  startTime : String
  endTime : String
  duration : String
  createdAt : Nat := 0
  updatedAt : Nat := 0
deriving Repr, DecidableEq

/-- Row of the `employees` table (`shared/schema.ts`). -/
structure EmployeeRow where
  id : String
  employeeId : String
  firstName : String
  lastName : String
  department : String
  userId : String
  createdAt : Nat := 0
  updatedAt : Nat := 0
deriving Repr, DecidableEq

/-- Row of the `project_employees` assignment table (`shared/schema.ts`). -/
structure ProjectEmployeeRow where
  id : String
  projectId : String
  employeeId : String
  userId : String
  createdAt : Nat := 0
deriving Repr, DecidableEq

/-- Row of the `departments` table (`shared/schema.ts`). -/
structure DepartmentRow where
  id : String
  name : String
  organizationId : String
  managerId : Option String := none
  description : Option String := none
  userId : String
  createdAt : Nat := 0
  updatedAt : Nat := 0
deriving Repr, DecidableEq

/-- Row of the `organizations` table (`shared/schema.ts`). -/
structure OrganizationRow where
  id : String
  name : String
  description : Option String := none
  userId : String
  createdAt : Nat := 0
  updatedAt : Nat := 0
deriving Repr, DecidableEq

/-- The database state: one list of rows per table used by the storage
methods under study. -/
structure DB where
  users : List UserRow := []
  projects : List ProjectRow := []
  tasks : List TaskRow := []
  timeEntries : List TimeEntryRow := []
  employees : List EmployeeRow := []
  projectEmployees : List ProjectEmployeeRow := []
  departments : List DepartmentRow := []
  organizations : List OrganizationRow := []
deriving Repr, DecidableEq

/-- Update of `update(t).set(f).where(cond).returning()`: the first
component is the new table contents, the second the list of updated rows
returned by `returning()`. -/
def updateWhere (rows : List α) (cond : α → Bool) (f : α → α) : List α × List α :=
  (rows.map (fun r => if cond r then f r else r), (rows.filter cond).map f)

/-- Deletion of `delete(t).where(cond)`: the first component is the new
table contents, the second the deleted rows (`rowCount` is its length, and
`returning()` yields it). -/
def deleteWhere (rows : List α) (cond : α → Bool) : List α × List α :=
  (rows.filter (fun r => !(cond r)), rows.filter cond)

/-- Insert payload for `projects` (`insertProjectSchema`): `id` and the
timestamps are omitted; columns with schema defaults may be left out. -/
structure InsertProject where
  name : String
  projectNumber : Option String := none
  description : Option String := none
  color : Option String := none
  startDate : Option Nat := none
  endDate : Option Nat := none
  isEnterpriseWide : Option Bool := none
  userId : String
deriving Repr, DecidableEq

/-- Insert payload for `tasks` (`insertTaskSchema`). -/
structure InsertTask where
  projectId : String
  name : String
  description : Option String := none
  status : Option String := none
deriving Repr, DecidableEq

/-- Insert payload for `time_entries` (`insertTimeEntrySchema`). -/
structure InsertTimeEntry where
  userId : String
  projectId : String
  taskId : Option String := none
  description : Option String := none
  date : String
  startTime : String
  endTime : String
  duration : String
deriving Repr, DecidableEq

/-- `Partial<InsertProject>`: every field optional; a present field
overwrites the stored column when spread into `set({...})`. -/
structure ProjectPatch where
  name : Option String := none
  projectNumber : Option String := none
  description : Option String := none
  color : Option String := none
  startDate : Option Nat := none
  endDate : Option Nat := none
  isEnterpriseWide : Option Bool := none
  userId : Option String := none
deriving Repr, DecidableEq

/-- `Partial<InsertTask>`. -/
structure TaskPatch where
  projectId : Option String := none
  name : Option String := none
  description : Option String := none
  status : Option String := none
deriving Repr, DecidableEq

/-- `Partial<InsertTimeEntry>`. -/
structure TimeEntryPatch where
  userId : Option String := none
  projectId : Option String := none
  taskId : Option String := none
  description : Option String := none
  date : Option String := none
  startTime : Option String := none
  endTime : Option String := none
  duration : Option String := none
deriving Repr, DecidableEq

/-- `Partial<InsertEmployee>`. -/
structure EmployeePatch where
  employeeId : Option String := none
  firstName : Option String := none
  lastName : Option String := none
  department : Option String := none
  userId : Option String := none
deriving Repr, DecidableEq

/-- `Partial<InsertDepartment>`. -/
structure DepartmentPatch where
  name : Option String := none
  organizationId : Option String := none
  managerId : Option String := none
  description : Option String := none
  userId : Option String := none
deriving Repr, DecidableEq

/-- `Partial<InsertOrganization>`. -/
structure OrganizationPatch where
  name : Option String := none
  description : Option String := none
  userId : Option String := none
deriving Repr, DecidableEq

/-- Spread of a patch field over an optional column: a present patch value
overwrites, an absent one keeps the stored value. -/
def overrideOpt (patch : Option α) (old : Option α) : Option α :=
  match patch with
  | some v => some v
  | none => old

/-- `DatabaseStorage.getUser` (storage.ts 162-172): first `users` row with
the given id. -/
def getUser (st : DB) (id : String) : Option UserRow :=
  (st.users.filter (fun u => u.id == id)).head?

/-- The role-resolution idiom repeated in every guarded method
(storage.ts, e.g. 404-405): `const user = await this.getUser(userId);
const userRole = user?.role || 'employee';`.  A missing user, a null role
or an empty-string role (all falsy in JS) resolve to `employee`. -/
def userRoleOf (st : DB) (userId : String) : String :=
  match getUser st userId with
  | some u =>
    match u.role with
    | some r => if r == "" then "employee" else r
    | none => "employee"
  | none => "employee"

/-- Spread `{...project, updatedAt: new Date()}` minus the timestamp, for
`Partial<InsertProject>` patches. -/
def applyProjectPatch (patch : ProjectPatch) (p : ProjectRow) : ProjectRow :=
  { p with
    name := patch.name.getD p.name
    projectNumber := overrideOpt patch.projectNumber p.projectNumber
    description := overrideOpt patch.description p.description
    color := patch.color.getD p.color
    startDate := overrideOpt patch.startDate p.startDate
    endDate := overrideOpt patch.endDate p.endDate
    isEnterpriseWide := patch.isEnterpriseWide.getD p.isEnterpriseWide
    userId := patch.userId.getD p.userId }

/-- Spread for `Partial<InsertTask>` patches. -/
def applyTaskPatch (patch : TaskPatch) (t : TaskRow) : TaskRow :=
  { t with
    projectId := patch.projectId.getD t.projectId
    name := patch.name.getD t.name
    description := overrideOpt patch.description t.description
    status := patch.status.getD t.status }

/-- Spread for `Partial<InsertTimeEntry>` patches. -/
def applyTimeEntryPatch (patch : TimeEntryPatch) (e : TimeEntryRow) : TimeEntryRow :=
  { e with
    userId := patch.userId.getD e.userId
    projectId := patch.projectId.getD e.projectId
    taskId := overrideOpt patch.taskId e.taskId
    description := overrideOpt patch.description e.description
    date := patch.date.getD e.date
    startTime := patch.startTime.getD e.startTime
    endTime := patch.endTime.getD e.endTime
    duration := patch.duration.getD e.duration }

/-- Spread for `Partial<InsertEmployee>` patches. -/
def applyEmployeePatch (patch : EmployeePatch) (e : EmployeeRow) : EmployeeRow :=
  { e with
    employeeId := patch.employeeId.getD e.employeeId
    firstName := patch.firstName.getD e.firstName
    lastName := patch.lastName.getD e.lastName
    department := patch.department.getD e.department
    userId := patch.userId.getD e.userId }

/-- Spread for `Partial<InsertDepartment>` patches. -/
def applyDepartmentPatch (patch : DepartmentPatch) (d : DepartmentRow) : DepartmentRow :=
  { d with
    name := patch.name.getD d.name
    organizationId := patch.organizationId.getD d.organizationId
    managerId := overrideOpt patch.managerId d.managerId
    description := overrideOpt patch.description d.description
    userId := patch.userId.getD d.userId }

/-- Spread for `Partial<InsertOrganization>` patches. -/
def applyOrganizationPatch (patch : OrganizationPatch) (o : OrganizationRow) : OrganizationRow :=
  { o with
    name := patch.name.getD o.name
    description := overrideOpt patch.description o.description
    userId := patch.userId.getD o.userId }

/-- `DatabaseStorage.getProjects` (storage.ts 365-373): all projects,
ordered by name; no access control. -/
def getProjects (st : DB) : List ProjectRow :=
  orderBy (fun a b => strLe a.name b.name) st.projects

/-- `DatabaseStorage.getEmployeeProjects` (storage.ts 375-388): only the
enterprise-wide projects, ordered by name; the comment in the source says
restricted project assignments are not queried for now. -/
def getEmployeeProjects (st : DB) (_userId : String) : List ProjectRow :=
  orderBy (fun a b => strLe a.name b.name)
    (st.projects.filter (fun p => p.isEnterpriseWide == true))

/-- `DatabaseStorage.getProject` (storage.ts 390-399): first project with
the given id; the `userId` argument is ignored (pure RBAC, no ownership
restriction for viewing). -/
def getProject (st : DB) (id : String) (_userId : String) : Option ProjectRow :=
  (st.projects.filter (fun p => p.id == id)).head?

/-- `DatabaseStorage.createProject` (storage.ts 401-422): only `admin` and
`project_manager` may create; otherwise throws. -/
def createProject (st : DB) (project : InsertProject) (userId : String)
    (newId : String) (now : Nat) : Except String ProjectRow × DB :=
  let userRole := userRoleOf st userId
  if !(["admin", "project_manager"].contains userRole) then
    (.error "Insufficient permissions to create projects", st)
  else
    let newProject : ProjectRow :=
      { id := newId
        name := project.name
        projectNumber := project.projectNumber
        description := project.description
        color := project.color.getD "#1976D2"
        startDate := project.startDate
        endDate := project.endDate
        isEnterpriseWide := project.isEnterpriseWide.getD true
        userId := project.userId
        createdAt := now
        updatedAt := now }
    (.ok newProject, { st with projects := st.projects ++ [newProject] })

/-- `DatabaseStorage.updateProject` (storage.ts 424-454): only `admin` and
`project_manager` may update; otherwise throws before any write. -/
def updateProject (st : DB) (id : String) (project : ProjectPatch)
    (userId : String) (now : Nat) : Except String (Option ProjectRow) × DB :=
  let userRole := userRoleOf st userId
  if !(["admin", "project_manager"].contains userRole) then
    (.error "Insufficient permissions to update projects", st)
  else
    let (rows, updated) := updateWhere st.projects (fun p => p.id == id)
      (fun p => { applyProjectPatch project p with updatedAt := now })
    (.ok updated.head?, { st with projects := rows })

/-- `DatabaseStorage.deleteProject` (storage.ts 456-483): only `admin` and
`project_manager` may delete; success is `rowCount > 0`. -/
def deleteProject (st : DB) (id : String) (userId : String) :
    Except String Bool × DB :=
  let userRole := userRoleOf st userId
  if !(["admin", "project_manager"].contains userRole) then
    (.error "Insufficient permissions to delete projects", st)
  else
    let (rows, removed) := deleteWhere st.projects (fun p => p.id == id)
    (.ok (decide (0 < removed.length)), { st with projects := rows })

/-- `DatabaseStorage.getTask` (storage.ts 504-519): first task with the
given id; the `userId` argument is unused. -/
def getTask (st : DB) (id : String) (_userId : String) : Option TaskRow :=
  (st.tasks.filter (fun t => t.id == id)).head?

/-- `DatabaseStorage.createTask` (storage.ts 521-540): the role gate runs
only when a `userId` is supplied (`if (userId) {...}`); with the caller id
absent the insert is performed with no check at all. -/
def createTask (st : DB) (task : InsertTask) (userId : Option String)
    (newId : String) (now : Nat) : Except String TaskRow × DB :=
  let newTask : TaskRow :=
    { id := newId
      projectId := task.projectId
      name := task.name
      description := task.description
      status := task.status.getD "active"
      createdAt := now
      updatedAt := now }
  match userId with
  | some uid =>
    if !(["admin", "project_manager"].contains (userRoleOf st uid)) then
      (.error "Insufficient permissions to create tasks", st)
    else
      (.ok newTask, { st with tasks := st.tasks ++ [newTask] })
  | none => (.ok newTask, { st with tasks := st.tasks ++ [newTask] })

/-- `DatabaseStorage.updateTask` (storage.ts 542-573): role gate for
`admin`/`project_manager`, then existence check, then the write. -/
def updateTask (st : DB) (id : String) (taskData : TaskPatch)
    (userId : String) (now : Nat) : Except String (Option TaskRow) × DB :=
  let userRole := userRoleOf st userId
  if !(["admin", "project_manager"].contains userRole) then
    (.error "Insufficient permissions to update tasks", st)
  else
    match getTask st id userId with
    | none => (.ok none, st)
    | some _ =>
      let (rows, updated) := updateWhere st.tasks (fun t => t.id == id)
        (fun t => { applyTaskPatch taskData t with updatedAt := now })
      (.ok updated.head?, { st with tasks := rows })

/-- `DatabaseStorage.deleteTask` (storage.ts 575-606): role gate for
`admin`/`project_manager`, then existence check, then the delete. -/
def deleteTask (st : DB) (id : String) (userId : String) :
    Except String Bool × DB :=
  let userRole := userRoleOf st userId
  if !(["admin", "project_manager"].contains userRole) then
    (.error "Insufficient permissions to delete tasks", st)
  else
    match getTask st id userId with
    | none => (.ok false, st)
    | some _ =>
      let (rows, removed) := deleteWhere st.tasks (fun t => t.id == id)
      (.ok (decide (0 < removed.length)), { st with tasks := rows })

/-- Joined row shape returned by the time-entry queries: the entry, its
project (inner join) and its task (left join). -/
structure TimeEntryWithProject where
  entry : TimeEntryRow
  project : ProjectRow
  task : Option TaskRow := none
deriving Repr, DecidableEq

/-- Optional filters of `getTimeEntries` (storage.ts 655-662). -/
structure TimeEntryFilters where
  projectId : Option String := none
  taskId : Option String := none
  startDate : Option String := none
  endDate : Option String := none
  limit : Option Nat := none
  offset : Option Nat := none
deriving Repr, DecidableEq

/-- Join of an entry with its project (inner, dropping entries whose
project is missing) and its task (left). -/
def joinEntry (st : DB) (te : TimeEntryRow) : Option TimeEntryWithProject :=
  ((st.projects.filter (fun p => p.id == te.projectId)).head?).map fun p =>
    { entry := te
      project := p
      task := te.taskId.bind fun tid => (st.tasks.filter (fun t => t.id == tid)).head? }

/-- Descending order by date then start time (storage.ts 725). -/
def timeEntryDescLe (a b : TimeEntryWithProject) : Bool :=
  if a.entry.date == b.entry.date then strLe b.entry.startTime a.entry.startTime
  else strLe b.entry.date a.entry.date

/-- `DatabaseStorage.getTimeEntries` (storage.ts 655-744): `admin` and
`project_manager` see every entry, all other roles only their own; the
optional filters are applied when truthy (JS: empty string and zero are
falsy and skipped), then descending order, OFFSET, LIMIT. -/
def getTimeEntries (st : DB) (userId : String) (filters : TimeEntryFilters) :
    List TimeEntryWithProject :=
  let userRole := userRoleOf st userId
  let whereConditions : List (TimeEntryRow → Bool) :=
    (if userRole == "admin" then ([] : List (TimeEntryRow → Bool))
     else if userRole == "project_manager" then []
     else [fun te => te.userId == userId])
    ++ (match filters.projectId with
        | some p =>
          if p == "" then ([] : List (TimeEntryRow → Bool))
          else [fun te => te.projectId == p]
        | none => [])
    ++ (match filters.taskId with
        | some t =>
          if t == "" then ([] : List (TimeEntryRow → Bool))
          else [fun te => te.taskId == some t]
        | none => [])
    ++ (match filters.startDate with
        | some s =>
          if s == "" then ([] : List (TimeEntryRow → Bool))
          else [fun te => strLe s te.date]
        | none => [])
    ++ (match filters.endDate with
        | some e =>
          if e == "" then ([] : List (TimeEntryRow → Bool))
          else [fun te => strLe te.date e]
        | none => [])
  let rows := st.timeEntries.filter (fun te => whereConditions.all (fun c => c te))
  let joined := rows.filterMap (joinEntry st)
  let sorted := orderBy timeEntryDescLe joined
  let withOffset :=
    match filters.offset with
    | some o => if o == 0 then sorted else sorted.drop o
    | none => sorted
  match filters.limit with
  | some l => if l == 0 then withOffset else withOffset.take l
  | none => withOffset

/-- WHERE clause repeated verbatim by `getTimeEntry`, `updateTimeEntry`
and `deleteTimeEntry` (storage.ts 757-763, 822-828, 855-861): match on the
entry id, and additionally on the caller id unless the role is `admin` or
`project_manager`. -/
def timeEntryWhere (userRole : String) (id : String) (userId : String) :
    List (TimeEntryRow → Bool) :=
  [fun te => te.id == id]
  ++ (if !(["admin", "project_manager"].contains userRole) then
        [fun te => te.userId == userId]
      else ([] : List (TimeEntryRow → Bool)))

/-- `DatabaseStorage.getTimeEntry` (storage.ts 746-795): `admin` and
`project_manager` may read any entry, all other roles only their own. -/
def getTimeEntry (st : DB) (id : String) (userId : String) :
    Option TimeEntryWithProject :=
  let userRole := userRoleOf st userId
  let whereConditions := timeEntryWhere userRole id userId
  ((st.timeEntries.filter (fun te => whereConditions.all (fun c => c te))).filterMap
    (joinEntry st)).head?

/-- `DatabaseStorage.createTimeEntry` (storage.ts 797-809): unconditional
insert; no role gate and no caller argument at all. -/
def createTimeEntry (st : DB) (entry : InsertTimeEntry) (newId : String)
    (now : Nat) : TimeEntryRow × DB :=
  let newEntry : TimeEntryRow :=
    { id := newId
      userId := entry.userId
      projectId := entry.projectId
      taskId := entry.taskId
      description := entry.description
      date := entry.date
      startTime := entry.startTime
      endTime := entry.endTime
      duration := entry.duration
      createdAt := now
      updatedAt := now }
  (newEntry, { st with timeEntries := st.timeEntries ++ [newEntry] })

/-- `DatabaseStorage.updateTimeEntry` (storage.ts 811-842): the WHERE
clause matches on the entry id, and additionally on the caller id unless
the caller is `admin` or `project_manager`. -/
def updateTimeEntry (st : DB) (id : String) (entry : TimeEntryPatch)
    (userId : String) (now : Nat) : Option TimeEntryRow × DB :=
  let userRole := userRoleOf st userId
  let whereConditions := timeEntryWhere userRole id userId
  let ru := updateWhere st.timeEntries
    (fun te => whereConditions.all (fun c => c te))
    (fun te => { applyTimeEntryPatch entry te with updatedAt := now })
  (ru.2.head?, { st with timeEntries := ru.1 })

/-- `DatabaseStorage.deleteTimeEntry` (storage.ts 844-874): same WHERE
clause as the update; success is `rowCount > 0`. -/
def deleteTimeEntry (st : DB) (id : String) (userId : String) : Bool × DB :=
  let userRole := userRoleOf st userId
  let whereConditions := timeEntryWhere userRole id userId
  let rd := deleteWhere st.timeEntries
    (fun te => whereConditions.all (fun c => c te))
  (decide (0 < rd.2.length), { st with timeEntries := rd.1 })

/-- `DatabaseStorage.getEmployees` (storage.ts 1084-1113): the role is
looked up but both branches leave the WHERE condition undefined, so every
caller sees every employee, ordered by first then last name. -/
def getEmployees (st : DB) (userId : String) : List EmployeeRow :=
  let userRole := userRoleOf st userId
  let whereCondition : Option (EmployeeRow → Bool) :=
    if userRole == "admin" then none else none
  let rows :=
    match whereCondition with
    | some c => st.employees.filter c
    | none => st.employees
  orderBy (fun a b =>
    if a.firstName == b.firstName then strLe a.lastName b.lastName
    else strLe a.firstName b.firstName) rows

/-- `DatabaseStorage.getEmployee` (storage.ts 1115-1143): the WHERE clause
only matches the employee id; the role branch merely logs. -/
def getEmployee (st : DB) (id : String) (_userId : String) : Option EmployeeRow :=
  let whereConditions : List (EmployeeRow → Bool) := [fun e => e.id == id]
  (st.employees.filter (fun e => whereConditions.all (fun c => c e))).head?

/-- `DatabaseStorage.updateEmployee` (storage.ts 1153-1179): only `admin`
and `manager` may update employee information; otherwise throws. -/
def updateEmployee (st : DB) (id : String) (employeeData : EmployeePatch)
    (userId : String) (now : Nat) : Except String (Option EmployeeRow) × DB :=
  let userRole := userRoleOf st userId
  if !(["admin", "manager"].contains userRole) then
    (.error "Insufficient permissions to update employee information", st)
  else
    let (rows, updated) := updateWhere st.employees (fun e => e.id == id)
      (fun e => { applyEmployeePatch employeeData e with updatedAt := now })
    (.ok updated.head?, { st with employees := rows })

/-- `DatabaseStorage.deleteEmployee` (storage.ts 1181-1206): only `admin`
may delete employees; otherwise throws. -/
def deleteEmployee (st : DB) (id : String) (userId : String) :
    Except String Bool × DB :=
  let userRole := userRoleOf st userId
  if !(userRole == "admin") then
    (.error "Insufficient permissions to delete employees", st)
  else
    let (rows, removed) := deleteWhere st.employees (fun e => e.id == id)
    (.ok (decide (0 < removed.length)), { st with employees := rows })

/-- `DatabaseStorage.assignEmployeesToProject` (storage.ts 1249-1289): role
gate for `admin`/`project_manager`, then a project-existence check, then
the existing assignments are replaced by the new ones. -/
def assignEmployeesToProject (st : DB) (projectId : String)
    (employeeIds : List String) (userId : String) (newIds : List String)
    (now : Nat) : Except String Unit × DB :=
  let userRole := userRoleOf st userId
  if !(["admin", "project_manager"].contains userRole) then
    (.error "Insufficient permissions to assign employees to projects", st)
  else
    let project := (st.projects.filter (fun p => p.id == projectId)).take 1
    if project.length == 0 then
      (.error "Project not found", st)
    else
      let (remaining, _) := deleteWhere st.projectEmployees
        (fun pe => pe.projectId == projectId)
      if 0 < employeeIds.length then
        let newAssignments := (employeeIds.zip newIds).map fun en =>
          { id := en.2
            projectId := projectId
            employeeId := en.1
            userId := userId
            createdAt := now : ProjectEmployeeRow }
        (.ok (), { st with projectEmployees := remaining ++ newAssignments })
      else
        (.ok (), { st with projectEmployees := remaining })

/-- `DatabaseStorage.removeEmployeeFromProject` (storage.ts 1325-1356):
role gate for `admin`/`project_manager`, then delete by project and
employee id. -/
def removeEmployeeFromProject (st : DB) (projectId : String)
    (employeeId : String) (userId : String) : Except String Bool × DB :=
  let userRole := userRoleOf st userId
  if !(["admin", "project_manager"].contains userRole) then
    (.error "Insufficient permissions to remove employees from projects", st)
  else
    let (rows, removed) := deleteWhere st.projectEmployees
      (fun pe => pe.projectId == projectId && pe.employeeId == employeeId)
    (.ok (decide (0 < removed.length)), { st with projectEmployees := rows })

/-- `DatabaseStorage.updateDepartment` (storage.ts 1453-1460): no role
check at all; the `userId` argument is unused and the write is
unconditional. -/
def updateDepartment (st : DB) (id : String) (department : DepartmentPatch)
    (_userId : String) (now : Nat) : Option DepartmentRow × DB :=
  let (rows, updated) := updateWhere st.departments (fun d => d.id == id)
    (fun d => { applyDepartmentPatch department d with updatedAt := now })
  (updated.head?, { st with departments := rows })

/-- `DatabaseStorage.deleteDepartment` (storage.ts 1462-1467): no role
check at all; the `userId` argument is unused and the delete is
unconditional. -/
def deleteDepartment (st : DB) (id : String) (_userId : String) : Bool × DB :=
  let (rows, removed) := deleteWhere st.departments (fun d => d.id == id)
  (decide (0 < removed.length), { st with departments := rows })

/-- `DatabaseStorage.updateOrganization` (storage.ts 1510-1536): only
`admin` may update organizations; otherwise throws. -/
def updateOrganization (st : DB) (id : String)
    (organization : OrganizationPatch) (userId : String) (now : Nat) :
    Except String (Option OrganizationRow) × DB :=
  let userRole := userRoleOf st userId
  if !(userRole == "admin") then
    (.error "Insufficient permissions to update organizations", st)
  else
    let (rows, updated) := updateWhere st.organizations (fun o => o.id == id)
      (fun o => { applyOrganizationPatch organization o with updatedAt := now })
    (.ok updated.head?, { st with organizations := rows })

/-- `DatabaseStorage.deleteOrganization` (storage.ts 1538-1563): only
`admin` may delete organizations; otherwise throws. -/
def deleteOrganization (st : DB) (id : String) (userId : String) :
    Except String Bool × DB :=
  let userRole := userRoleOf st userId
  if !(userRole == "admin") then
    (.error "Insufficient permissions to delete organizations", st)
  else
    let (rows, removed) := deleteWhere st.organizations (fun o => o.id == id)
    (.ok (decide (0 < removed.length)), { st with organizations := rows })

/-- `DatabaseStorage.updateUserRole` (storage.ts 246-276): sets the role
column of the target user unconditionally; there is no check of any
caller, let alone of an Admin caller. -/
def updateUserRole (st : DB) (userId : String) (role : String) (now : Nat) :
    Option UserRow × DB :=
  let (rows, updated) := updateWhere st.users (fun u => u.id == userId)
    (fun u => { u with role := some role, updatedAt := now })
  (updated.head?, { st with users := rows })

/-- Role-based project conditions of
`DatabaseStorage.getProjectTimeBreakdown` (storage.ts 983-1011): `admin`
unrestricted, `project_manager` enterprise-wide or own projects, `manager`
and every other role enterprise-wide only.  Only the project filter is
embedded; the duration aggregation below it is not modelled. -/
def projectTimeBreakdownConditions (st : DB) (userId : String) :
    ProjectRow → Bool :=
  let userRole := userRoleOf st userId
  if userRole == "admin" then fun _ => true
  else if userRole == "project_manager" then
    fun p => p.isEnterpriseWide || p.userId == userId
  else if userRole == "manager" then fun p => p.isEnterpriseWide
  else fun p => p.isEnterpriseWide

/-- The twelve role-guarded mutating storage operations, with their
arguments, gathered so that denial atomicity can be stated uniformly. -/
inductive Mutation where
  | createProject (project : InsertProject) (userId newId : String) (now : Nat)
  | updateProject (id : String) (patch : ProjectPatch) (userId : String) (now : Nat)
  | deleteProject (id userId : String)
  | createTask (task : InsertTask) (userId : Option String) (newId : String) (now : Nat)
  | updateTask (id : String) (patch : TaskPatch) (userId : String) (now : Nat)
  | deleteTask (id userId : String)
  | updateEmployee (id : String) (patch : EmployeePatch) (userId : String) (now : Nat)
  | deleteEmployee (id userId : String)
  | assignEmployeesToProject (projectId : String) (employeeIds : List String)
      (userId : String) (newIds : List String) (now : Nat)
  | removeEmployeeFromProject (projectId employeeId userId : String)
  | updateOrganization (id : String) (patch : OrganizationPatch) (userId : String) (now : Nat)
  | deleteOrganization (id userId : String)
deriving Repr, DecidableEq

/-- Discard the success value of an operation, keeping the error and the
resulting state. -/
def discardResult (r : Except String α × DB) : Except String Unit × DB :=
  (r.1.map (fun _ => ()), r.2)

/-- Run one of the guarded mutations against a database state. -/
def runMutation (m : Mutation) (st : DB) : Except String Unit × DB :=
  match m with
  | .createProject p uid nid now => discardResult (createProject st p uid nid now)
  | .updateProject id patch uid now => discardResult (updateProject st id patch uid now)
  | .deleteProject id uid => discardResult (deleteProject st id uid)
  | .createTask t uid nid now => discardResult (createTask st t uid nid now)
  | .updateTask id patch uid now => discardResult (updateTask st id patch uid now)
  | .deleteTask id uid => discardResult (deleteTask st id uid)
  | .updateEmployee id patch uid now => discardResult (updateEmployee st id patch uid now)
  | .deleteEmployee id uid => discardResult (deleteEmployee st id uid)
  | .assignEmployeesToProject pid eids uid nids now =>
      discardResult (assignEmployeesToProject st pid eids uid nids now)
  | .removeEmployeeFromProject pid eid uid =>
      discardResult (removeEmployeeFromProject st pid eid uid)
  | .updateOrganization id patch uid now =>
      discardResult (updateOrganization st id patch uid now)
  | .deleteOrganization id uid => discardResult (deleteOrganization st id uid)

/-- The exact messages of the `Insufficient permissions` errors thrown by
the guarded storage methods. -/
def insufficientPermissionsMessages : List String :=
  ["Insufficient permissions to create projects",
   "Insufficient permissions to update projects",
   "Insufficient permissions to delete projects",
   "Insufficient permissions to create tasks",
   "Insufficient permissions to update tasks",
   "Insufficient permissions to delete tasks",
   "Insufficient permissions to update employee information",
   "Insufficient permissions to delete employees",
   "Insufficient permissions to assign employees to projects",
   "Insufficient permissions to remove employees from projects",
   "Insufficient permissions to update organizations",
   "Insufficient permissions to delete organizations"]

/-- Tests whether an operation terminated with one of the
`Insufficient permissions` errors. -/
def deniedInsufficient (r : Except String Unit) : Bool :=
  match r with
  | .error m => insufficientPermissionsMessages.contains m
  | .ok _ => false

/-- Helper for stating role-variation properties: the same database with
the role column of one user replaced. -/
def setUserRole (st : DB) (userId : String) (role : Option String) : DB :=
  { st with
    users := st.users.map (fun u => if u.id == userId then { u with role := role } else u) }

/-- Concrete state used to evaluate the theorems: two ordinary
(`employee`-role) users, an enterprise-wide project owned by `u2`, a
restricted project owned by `u1`, a time entry of `u2`, two employees in
different departments, a department and an organization. -/
def sampleDB : DB :=
  { users := [{ id := "u1", role := some "employee" },
              { id := "u2", role := some "employee" }]
    projects := [{ id := "p1", name := "Alpha", isEnterpriseWide := true, userId := "u2" },
                 { id := "p2", name := "Beta", isEnterpriseWide := false, userId := "u1" }]
    tasks := []
    timeEntries := [{ id := "e1", userId := "u2", projectId := "p1",
                      date := "2025-01-02", startTime := "09:00",
                      endTime := "10:00", duration := "1.00" }]
    employees := [{ id := "emp1", employeeId := "E1", firstName := "Ann",
                    lastName := "Ames", department := "d1", userId := "u1" },
                  { id := "emp2", employeeId := "E2", firstName := "Bob",
                    lastName := "Best", department := "d2", userId := "u2" }]
    projectEmployees := []
    departments := [{ id := "d1", name := "Dept One", organizationId := "o1", userId := "u1" }]
    organizations := [{ id := "o1", name := "Org", userId := "u1" }] }

/-- The same state with caller `u1` given the `manager` role. -/
def managerDB : DB := setUserRole sampleDB "u1" (some "manager")

/-- C1 (counterexample): at a concrete input an authorization refusal of
`createProject` is a thrown `Error` (modelled `Except.error`) with a
human-readable message — not a returned `Deny` decision value with a
machine-readable reason code.  This falsifies the claim that refusal is
never signalled by throwing an exception. -/
theorem C1_counterexample :
    createProject sampleDB { name := "New", userId := "u1" } "u1" "p9" 7 =
      (Except.error "Insufficient permissions to create projects", sampleDB) := by
  rfl

/-- C1 (amended): whenever the caller role fails the respective gate,
`createProject` and `updateEmployee` signal the refusal by throwing an
`Error` whose message begins with `Insufficient permissions`, leaving the
state unchanged; no `Deny` decision value with a reason code exists. -/
theorem C1_refusal_is_thrown_exception (st : DB) (uid : String)
    (project : InsertProject) (newId : String) (now : Nat)
    (id : String) (patch : EmployeePatch) (now2 : Nat)
    (h1 : (["admin", "project_manager"].contains (userRoleOf st uid)) = false)
    (h2 : (["admin", "manager"].contains (userRoleOf st uid)) = false) :
    createProject st project uid newId now =
      (.error "Insufficient permissions to create projects", st) ∧
    updateEmployee st id patch uid now2 =
      (.error "Insufficient permissions to update employee information", st) := by
  constructor
  · simp only [createProject]
    rw [h1]
    rfl
  · simp only [updateEmployee]
    rw [h2]
    rfl

/-- C1 (witness): the amended theorem applied at a concrete input. -/
theorem C1_witness :
    (["admin", "project_manager"].contains (userRoleOf sampleDB "u1")) = false ∧
    (["admin", "manager"].contains (userRoleOf sampleDB "u1")) = false ∧
    createProject sampleDB { name := "New", userId := "u1" } "u1" "p9" 7 =
      (.error "Insufficient permissions to create projects", sampleDB) ∧
    updateEmployee sampleDB "emp1" {} "u1" 7 =
      (.error "Insufficient permissions to update employee information", sampleDB) := by
  refine ⟨by decide, by decide, ?_, ?_⟩
  · exact (C1_refusal_is_thrown_exception sampleDB "u1" { name := "New", userId := "u1" }
      "p9" 7 "emp1" {} 7 (by decide) (by decide)).1
  · exact (C1_refusal_is_thrown_exception sampleDB "u1" { name := "New", userId := "u1" }
      "p9" 7 "emp1" {} 7 (by decide) (by decide)).2

/-- C2 (counterexample): at a concrete input, creating a task with the
acting user id absent is permitted — the task is inserted with no role
check — falsifying the claim that a missing caller context always yields a
denial and performs no change. -/
theorem C2_counterexample :
    createTask sampleDB { projectId := "p1", name := "T" } none "t9" 5 =
      (Except.ok { id := "t9", projectId := "p1", name := "T",
                   status := "active", createdAt := 5, updatedAt := 5 },
       { sampleDB with
         tasks := [{ id := "t9", projectId := "p1", name := "T",
                     status := "active", createdAt := 5, updatedAt := 5 }] }) := by
  rfl

/-- C2 (amended): when the acting user id is absent, `createTask` skips
the role gate entirely and always inserts the task — allow-by-default, not
a `Deny("missing_instance_context")`; the gate runs only when a caller id
is supplied. -/
theorem C2_createTask_without_caller_always_inserts (st : DB)
    (task : InsertTask) (newId : String) (now : Nat) :
    ∃ t, createTask st task none newId now =
      (.ok t, { st with tasks := st.tasks ++ [t] }) := by
  exact ⟨_, rfl⟩

/-- C3 (counterexample): at a concrete input, a caller whose role is
`employee` successfully deletes a department — the operation has an
unconditional execution path open to every role, falsifying the claim
that such operations have a defined role gate with fail-closed denial. -/
theorem C3_counterexample :
    deleteDepartment sampleDB "d1" "u1" =
      (true, { sampleDB with departments := [] }) ∧
    userRoleOf sampleDB "u1" = "employee" := by
  exact ⟨rfl, rfl⟩

/-- C3 (amended): `updateDepartment`, `deleteDepartment` and
`createTimeEntry` have no role gate in the storage layer: the first two
behave identically for every caller id (and hence every caller role), and
time-entry creation unconditionally appends the new row, taking no caller
at all. -/
theorem C3_department_and_timeentry_ops_ungated (st : DB) (id : String)
    (patch : DepartmentPatch) (u1 u2 : String) (now : Nat)
    (entry : InsertTimeEntry) (newId : String) :
    updateDepartment st id patch u1 now = updateDepartment st id patch u2 now ∧
    deleteDepartment st id u1 = deleteDepartment st id u2 ∧
    (createTimeEntry st entry newId now).2.timeEntries =
      st.timeEntries ++ [(createTimeEntry st entry newId now).1] := by
  exact ⟨rfl, rfl, rfl⟩

/-- C4 (counterexample): in a state whose users all have role `employee`
(no Admin exists anywhere), a role-change request still succeeds and sets
the target role to `admin` — it is not refused and the target role does
change, falsifying the claim that only an Admin-performed role assignment
can change a role. -/
theorem C4_counterexample :
    updateUserRole sampleDB "u2" "admin" 7 =
      (some { id := "u2", role := some "admin", updatedAt := 7 },
       { sampleDB with
         users := [{ id := "u1", role := some "employee" },
                   { id := "u2", role := some "admin", updatedAt := 7 }] }) ∧
    sampleDB.users.all (fun u => u.role == some "employee") = true := by
  exact ⟨rfl, rfl⟩

/-- Conclusion of the amended role-change claim: whenever the target user
exists, `updateUserRole` succeeds and afterwards the target row carries
the requested role, with no caller-role condition anywhere. -/
def RoleChangeUnconditional (st : DB) (uid r : String) (now : Nat) : Prop :=
  (updateUserRole st uid r now).1.isSome = true ∧
  ∀ u ∈ (updateUserRole st uid r now).2.users, u.id = uid → u.role = some r

/-- C4 (amended): `updateUserRole` performs the role change
unconditionally for any caller — the storage layer checks no Admin
status; whenever the target user exists the update is applied. -/
theorem C4_role_update_unchecked (st : DB) (uid r : String) (now : Nat)
    (hex : st.users.any (fun u => u.id == uid) = true) :
    RoleChangeUnconditional st uid r now := by
  constructor
  · rw [List.any_eq_true] at hex
    obtain ⟨u, hu, hp⟩ := hex
    have hne : st.users.filter (fun v => v.id == uid) ≠ [] := by
      intro hnil
      rw [List.filter_eq_nil_iff] at hnil
      exact absurd hp (by simpa using hnil u hu)
    simp only [updateUserRole, updateWhere]
    rw [Option.isSome_iff_ne_none]
    intro hnone
    rw [List.head?_eq_none_iff, List.map_eq_nil_iff] at hnone
    exact hne hnone
  · intro u hu hid
    simp only [updateUserRole, updateWhere, List.mem_map] at hu
    obtain ⟨v, hv, rfl⟩ := hu
    by_cases h : (v.id == uid) = true
    · simp [h]
    · simp only [h, Bool.false_eq_true, if_false] at hid ⊢
      exact absurd (by simpa using hid) (by simpa using h)

/-- C4 (witness): the amended theorem applied at a concrete input. -/
theorem C4_witness :
    sampleDB.users.any (fun u => u.id == "u2") = true ∧
    RoleChangeUnconditional sampleDB "u2" "admin" 7 := by
  exact ⟨by decide, C4_role_update_unchecked sampleDB "u2" "admin" 7 (by decide)⟩

/-- Head of the image of a filtered list is present exactly when some
element satisfies the filter. -/
theorem head?_map_filter_isSome (l : List α) (p : α → Bool) (f : α → β) :
    (((l.filter p).map f).head?).isSome = true ↔ ∃ a ∈ l, p a = true := by
  rw [Option.isSome_iff_ne_none, ne_eq, List.head?_eq_none_iff,
    List.map_eq_nil_iff, List.filter_eq_nil_iff]
  push_neg
  simp

/-- Positive count of a filtered list is equivalent to a satisfying
element. -/
theorem zero_lt_length_filter (l : List α) (p : α → Bool) :
    decide (0 < (l.filter p).length) = true ↔ ∃ a ∈ l, p a = true := by
  rw [decide_eq_true_iff, List.length_pos, ne_eq, List.filter_eq_nil_iff]
  push_neg
  simp

/-- Conditional map over a list none of whose elements matches is the
identity. -/
theorem map_ite_id (l : List α) (p : α → Bool) (f : α → α)
    (h : ∀ a ∈ l, p a = false) :
    l.map (fun a => if p a then f a else a) = l := by
  induction l with
  | nil => rfl
  | cons x xs ih =>
    have hx := h x (List.mem_cons_self x xs)
    simp [hx, ih (fun a ha => h a (List.mem_cons_of_mem x ha))]

/-- C5 (counterexample): with `u1` a Manager whose linked employee record
is in department `d1`, the employee list returned to `u1` contains the
employee of department `d2` — falsifying department-scoped reads for
Managers. -/
theorem C5_counterexample :
    userRoleOf managerDB "u1" = "manager" ∧
    ((managerDB.employees.filter (fun e => e.userId == "u1")).head?).map
      (fun e => e.department) = some "d1" ∧
    ({ id := "emp2", employeeId := "E2", firstName := "Bob",
       lastName := "Best", department := "d2", userId := "u2" } : EmployeeRow)
      ∈ getEmployees managerDB "u1" := by
  refine ⟨rfl, rfl, ?_⟩
  decide

/-- C5 (amended): `getEmployees` returns every stored employee to every
caller — including Managers — with no department filter; the role lookup
feeds no restriction into the query. -/
theorem C5_getEmployees_returns_all (st : DB) (uid : String) (e : EmployeeRow) :
    e ∈ getEmployees st uid ↔ e ∈ st.employees := by
  simp only [getEmployees]
  rw [mem_orderBy]
  by_cases h : (userRoleOf st uid == "admin") = true
  · simp [h]
  · simp [h]

/-- Match predicate of the own-only time-entry WHERE clause: for a
non-privileged role it requires both the entry id and the caller
ownership. -/
theorem timeEntryWhere_all_own (r id uid : String)
    (hrole : (["admin", "project_manager"].contains r) = false)
    (te : TimeEntryRow) :
    ((timeEntryWhere r id uid).all (fun c => c te)) =
      ((te.id == id) && (te.userId == uid)) := by
  rw [timeEntryWhere, hrole]
  simp

/-- Conclusion of the amended own-only scoping claim: for a caller outside
the privileged roles, updating or deleting a time entry succeeds exactly
when a stored entry has that id and is owned by the caller, and when no
such entry exists both operations return their empty results and leave the
state unchanged. -/
def OwnOnlyScopeSound (st : DB) (id : String) (patch : TimeEntryPatch)
    (uid : String) (now : Nat) : Prop :=
  ((updateTimeEntry st id patch uid now).1.isSome = true ↔
    ∃ te ∈ st.timeEntries, te.id = id ∧ te.userId = uid) ∧
  ((deleteTimeEntry st id uid).1 = true ↔
    ∃ te ∈ st.timeEntries, te.id = id ∧ te.userId = uid) ∧
  ((¬ ∃ te ∈ st.timeEntries, te.id = id ∧ te.userId = uid) →
    updateTimeEntry st id patch uid now = (none, st) ∧
    deleteTimeEntry st id uid = (false, st))

/-- C6 (amended): own-only scope soundness for `updateTimeEntry` and
`deleteTimeEntry` — success exactly on an owned entry; on an owner
mismatch the operations return `undefined`/`false` (no reason-code value)
and modify nothing. -/
theorem C6_ownonly_scope (st : DB) (id : String) (patch : TimeEntryPatch)
    (uid : String) (now : Nat)
    (hrole : (["admin", "project_manager"].contains (userRoleOf st uid)) = false) :
    OwnOnlyScopeSound st id patch uid now := by
  have hcond := timeEntryWhere_all_own (userRoleOf st uid) id uid hrole
  refine ⟨?_, ?_, ?_⟩
  · simp only [updateTimeEntry, updateWhere]
    rw [List.filter_congr (fun te _ => hcond te)]
    rw [head?_map_filter_isSome]
    simp
  · simp only [deleteTimeEntry, deleteWhere]
    rw [zero_lt_length_filter]
    simp [hcond]
  · intro hno
    have hfalse : ∀ te ∈ st.timeEntries, ((te.id == id) && (te.userId == uid)) = false := by
      intro te hte
      cases hx : ((te.id == id) && (te.userId == uid)) with
      | false => rfl
      | true => exact absurd ⟨te, hte, by simpa using hx⟩ hno
    have hPfalse : ∀ te ∈ st.timeEntries,
        ((timeEntryWhere (userRoleOf st uid) id uid).all (fun c => c te)) = false := by
      intro te hte
      rw [hcond te]
      exact hfalse te hte
    have hfilter : st.timeEntries.filter
        (fun te => (timeEntryWhere (userRoleOf st uid) id uid).all (fun c => c te)) = [] :=
      List.filter_eq_nil_iff.mpr (by intro a ha; simp [hPfalse a ha])
    have hkeep : st.timeEntries.filter
        (fun r => !((timeEntryWhere (userRoleOf st uid) id uid).all (fun c => c r))) =
        st.timeEntries :=
      List.filter_eq_self.mpr (by intro a ha; simp [hPfalse a ha])
    constructor
    · simp only [updateTimeEntry, updateWhere]
      rw [map_ite_id _ _ _ hPfalse, hfilter]
      rfl
    · simp only [deleteTimeEntry, deleteWhere, Prod.mk.injEq]
      constructor
      · simp [hfilter]
      · rw [hkeep]

/-- C6 (counterexample): for employee `u1` and entry `e1` owned by `u2`,
the update and the delete refuse — but the refusal is the bare
`undefined`/`false` result, identical to the result for a nonexistent
entry id, carrying no `out_of_scope` reason code; this falsifies the claim
that the result is a `Deny("out_of_scope")` decision value. -/
theorem C6_counterexample :
    updateTimeEntry sampleDB "e1" {} "u1" 3 = (none, sampleDB) ∧
    deleteTimeEntry sampleDB "e1" "u1" = (false, sampleDB) ∧
    updateTimeEntry sampleDB "missing" {} "u1" 3 = (none, sampleDB) ∧
    ((sampleDB.timeEntries.filter (fun te => te.id == "e1")).head?).map
      (fun te => te.userId) = some "u2" := by
  exact ⟨by decide, by decide, by decide, rfl⟩

/-- C6 (witness): the amended theorem applied at a concrete input. -/
theorem C6_witness :
    (["admin", "project_manager"].contains (userRoleOf sampleDB "u1")) = false ∧
    OwnOnlyScopeSound sampleDB "e1" {} "u1" 3 := by
  exact ⟨by decide, C6_ownonly_scope sampleDB "e1" {} "u1" 3 (by decide)⟩

/-- The three role tests occurring in the storage guards, all negative:
the role string is none of `admin`, `project_manager`, `manager`. -/
def rolePrivTests (s : String) : Prop :=
  (s == "admin") = false ∧ (s == "project_manager") = false ∧ (s == "manager") = false

/-- Looking up a user after replacing that same user role yields the
original row with the role replaced. -/
theorem getUser_setUserRole (st : DB) (uid : String) (x : Option String) :
    getUser (setUserRole st uid x) uid =
      (getUser st uid).map (fun u => { u with role := x }) := by
  simp only [getUser, setUserRole]
  induction st.users with
  | nil => rfl
  | cons u us ih =>
    by_cases h : (u.id == uid) = true
    · have heq : u.id = uid := by simpa using h
      simp [List.filter_cons, h, heq]
    · have hne : ¬ u.id = uid := by simpa using h
      simp only [List.map_cons, List.filter_cons, h, hne]
      simpa [h, hne] using ih

/-- The resolved role after a role replacement. -/
theorem userRoleOf_setUserRole (st : DB) (uid s : String) :
    userRoleOf (setUserRole st uid (some s)) uid =
      match getUser st uid with
      | some _ => if s == "" then "employee" else s
      | none => "employee" := by
  simp only [userRoleOf, getUser_setUserRole]
  cases getUser st uid <;> rfl

/-- A role string different from the three privileged ones fails every
guard test after being written to the user row. -/
theorem priv_tests_set (st : DB) (uid s : String)
    (hA : s ≠ "admin") (hP : s ≠ "project_manager") (hM : s ≠ "manager") :
    rolePrivTests (userRoleOf (setUserRole st uid (some s)) uid) := by
  rw [userRoleOf_setUserRole]
  cases getUser st uid with
  | none => exact ⟨rfl, rfl, rfl⟩
  | some u =>
    by_cases hs : (s == "") = true
    · simp only [hs, if_true]
      exact ⟨rfl, rfl, rfl⟩
    · simp only [hs, Bool.false_eq_true, if_false]
      exact ⟨by simpa using hA, by simpa using hP, by simpa using hM⟩

/-- A null role resolves to `employee` and fails every guard test. -/
theorem priv_tests_none (st : DB) (uid : String) :
    rolePrivTests (userRoleOf (setUserRole st uid none) uid) := by
  simp only [userRoleOf, getUser_setUserRole]
  cases getUser st uid <;> exact ⟨rfl, rfl, rfl⟩

/-- Behavioral identity of the authorization checks and data-scoping
queries between two database states for a fixed caller: every embedded
role-guarded or role-scoped operation returns the same result, and leaves
the table it writes in the same contents, in both states. -/
def SameAuthBehavior (s1 s2 : DB) (uid : String) : Prop :=
  (∀ project nid now, (createProject s1 project uid nid now).1 =
      (createProject s2 project uid nid now).1 ∧
    (createProject s1 project uid nid now).2.projects =
      (createProject s2 project uid nid now).2.projects) ∧
  (∀ id patch now, (updateProject s1 id patch uid now).1 =
      (updateProject s2 id patch uid now).1 ∧
    (updateProject s1 id patch uid now).2.projects =
      (updateProject s2 id patch uid now).2.projects) ∧
  (∀ id, (deleteProject s1 id uid).1 = (deleteProject s2 id uid).1 ∧
    (deleteProject s1 id uid).2.projects = (deleteProject s2 id uid).2.projects) ∧
  (∀ task nid now, (createTask s1 task (some uid) nid now).1 =
      (createTask s2 task (some uid) nid now).1 ∧
    (createTask s1 task (some uid) nid now).2.tasks =
      (createTask s2 task (some uid) nid now).2.tasks) ∧
  (∀ id patch now, (updateTask s1 id patch uid now).1 =
      (updateTask s2 id patch uid now).1 ∧
    (updateTask s1 id patch uid now).2.tasks =
      (updateTask s2 id patch uid now).2.tasks) ∧
  (∀ id, (deleteTask s1 id uid).1 = (deleteTask s2 id uid).1 ∧
    (deleteTask s1 id uid).2.tasks = (deleteTask s2 id uid).2.tasks) ∧
  (∀ filters, getTimeEntries s1 uid filters = getTimeEntries s2 uid filters) ∧
  (∀ id, getTimeEntry s1 id uid = getTimeEntry s2 id uid) ∧
  (∀ id patch now, (updateTimeEntry s1 id patch uid now).1 =
      (updateTimeEntry s2 id patch uid now).1 ∧
    (updateTimeEntry s1 id patch uid now).2.timeEntries =
      (updateTimeEntry s2 id patch uid now).2.timeEntries) ∧
  (∀ id, (deleteTimeEntry s1 id uid).1 = (deleteTimeEntry s2 id uid).1 ∧
    (deleteTimeEntry s1 id uid).2.timeEntries =
      (deleteTimeEntry s2 id uid).2.timeEntries) ∧
  (getEmployees s1 uid = getEmployees s2 uid) ∧
  (∀ id, getEmployee s1 id uid = getEmployee s2 id uid) ∧
  (∀ id patch now, (updateEmployee s1 id patch uid now).1 =
      (updateEmployee s2 id patch uid now).1 ∧
    (updateEmployee s1 id patch uid now).2.employees =
      (updateEmployee s2 id patch uid now).2.employees) ∧
  (∀ id, (deleteEmployee s1 id uid).1 = (deleteEmployee s2 id uid).1 ∧
    (deleteEmployee s1 id uid).2.employees =
      (deleteEmployee s2 id uid).2.employees) ∧
  (∀ pid eids nids now, (assignEmployeesToProject s1 pid eids uid nids now).1 =
      (assignEmployeesToProject s2 pid eids uid nids now).1 ∧
    (assignEmployeesToProject s1 pid eids uid nids now).2.projectEmployees =
      (assignEmployeesToProject s2 pid eids uid nids now).2.projectEmployees) ∧
  (∀ pid eid, (removeEmployeeFromProject s1 pid eid uid).1 =
      (removeEmployeeFromProject s2 pid eid uid).1 ∧
    (removeEmployeeFromProject s1 pid eid uid).2.projectEmployees =
      (removeEmployeeFromProject s2 pid eid uid).2.projectEmployees) ∧
  (∀ id patch now, (updateOrganization s1 id patch uid now).1 =
      (updateOrganization s2 id patch uid now).1 ∧
    (updateOrganization s1 id patch uid now).2.organizations =
      (updateOrganization s2 id patch uid now).2.organizations) ∧
  (∀ id, (deleteOrganization s1 id uid).1 = (deleteOrganization s2 id uid).1 ∧
    (deleteOrganization s1 id uid).2.organizations =
      (deleteOrganization s2 id uid).2.organizations) ∧
  (projectTimeBreakdownConditions s1 uid = projectTimeBreakdownConditions s2 uid) ∧
  (getEmployeeProjects s1 uid = getEmployeeProjects s2 uid) ∧
  (∀ id, getProject s1 id uid = getProject s2 id uid)

/-- Two states with the same data tables and non-privileged caller roles
are indistinguishable through every embedded authorization check and
scoped query. -/
theorem sameAuth_of_notPriv (s1 s2 : DB) (uid : String)
    (hproj : s1.projects = s2.projects) (htask : s1.tasks = s2.tasks)
    (hte : s1.timeEntries = s2.timeEntries) (hemp : s1.employees = s2.employees)
    (hpe : s1.projectEmployees = s2.projectEmployees)
    (horg : s1.organizations = s2.organizations)
    (h1 : rolePrivTests (userRoleOf s1 uid))
    (h2 : rolePrivTests (userRoleOf s2 uid)) :
    SameAuthBehavior s1 s2 uid := by
  obtain ⟨h1a, h1p, h1m⟩ := h1
  obtain ⟨h2a, h2p, h2m⟩ := h2
  have n1a : ¬ userRoleOf s1 uid = "admin" := by simpa using h1a
  have n1p : ¬ userRoleOf s1 uid = "project_manager" := by simpa using h1p
  have n1m : ¬ userRoleOf s1 uid = "manager" := by simpa using h1m
  have n2a : ¬ userRoleOf s2 uid = "admin" := by simpa using h2a
  have n2p : ¬ userRoleOf s2 uid = "project_manager" := by simpa using h2p
  have n2m : ¬ userRoleOf s2 uid = "manager" := by simpa using h2m
  have hjoin : joinEntry s1 = joinEntry s2 := by
    funext te
    simp [joinEntry, hproj, htask]
  refine ⟨?_, ?_, ?_, ?_, ?_, ?_, ?_, ?_, ?_, ?_, ?_, ?_, ?_, ?_, ?_, ?_, ?_, ?_, ?_, ?_, ?_⟩
  · intro project nid now
    simp [createProject, n1a, n1p, n2a, n2p, hproj]
  · intro id patch now
    simp [updateProject, n1a, n1p, n2a, n2p, hproj]
  · intro id
    simp [deleteProject, n1a, n1p, n2a, n2p, hproj]
  · intro task nid now
    simp [createTask, n1a, n1p, n2a, n2p, htask]
  · intro id patch now
    simp [updateTask, n1a, n1p, n2a, n2p, htask]
  · intro id
    simp [deleteTask, n1a, n1p, n2a, n2p, htask]
  · intro filters
    simp [getTimeEntries, n1a, n1p, n2a, n2p, hte, hjoin]
  · intro id
    simp [getTimeEntry, timeEntryWhere, n1a, n1p, n2a, n2p, hte, hjoin]
  · intro id patch now
    simp [updateTimeEntry, timeEntryWhere, n1a, n1p, n2a, n2p, hte]
  · intro id
    simp [deleteTimeEntry, timeEntryWhere, n1a, n1p, n2a, n2p, hte]
  · simp [getEmployees, hemp]
  · intro id
    simp [getEmployee, hemp]
  · intro id patch now
    simp [updateEmployee, n1a, n1m, n2a, n2m, hemp]
  · intro id
    simp [deleteEmployee, n1a, n2a, hemp]
  · intro pid eids nids now
    simp [assignEmployeesToProject, n1a, n1p, n2a, n2p, hproj, hpe]
  · intro pid eid
    simp [removeEmployeeFromProject, n1a, n1p, n2a, n2p, hpe]
  · intro id patch now
    simp [updateOrganization, n1a, n2a, horg]
  · intro id
    simp [deleteOrganization, n1a, n2a, horg]
  · simp [projectTimeBreakdownConditions, n1a, n1p, n1m, n2a, n2p, n2m]
  · simp [getEmployeeProjects, hproj]
  · intro id
    simp [getProject, hproj]

/-- C7 (confirmed): an actor whose role is missing (null) or any string
other than the privileged `admin`, `project_manager`, `manager` — in
particular any value outside the closed role enumeration — behaves
identically to the same actor with role `employee` in every embedded
authorization check and data-scoping query; no operation treats an
unresolved role as `admin`. -/
theorem C7_unmapped_role_behaves_as_employee (st : DB) (uid r : String)
    (hA : r ≠ "admin") (hP : r ≠ "project_manager") (hM : r ≠ "manager") :
    SameAuthBehavior (setUserRole st uid (some r))
      (setUserRole st uid (some "employee")) uid ∧
    SameAuthBehavior (setUserRole st uid none)
      (setUserRole st uid (some "employee")) uid := by
  constructor
  · exact sameAuth_of_notPriv _ _ uid rfl rfl rfl rfl rfl rfl
      (priv_tests_set st uid r hA hP hM)
      (priv_tests_set st uid "employee" (by decide) (by decide) (by decide))
  · exact sameAuth_of_notPriv _ _ uid rfl rfl rfl rfl rfl rfl
      (priv_tests_none st uid)
      (priv_tests_set st uid "employee" (by decide) (by decide) (by decide))

/-- C7 (witness): the theorem applied at a concrete unmapped role. -/
theorem C7_witness :
    ("superuser" ≠ "admin" ∧ "superuser" ≠ "project_manager" ∧
      "superuser" ≠ "manager") ∧
    SameAuthBehavior (setUserRole sampleDB "u1" (some "superuser"))
      (setUserRole sampleDB "u1" (some "employee")) "u1" ∧
    SameAuthBehavior (setUserRole sampleDB "u1" none)
      (setUserRole sampleDB "u1" (some "employee")) "u1" := by
  refine ⟨⟨by decide, by decide, by decide⟩, ?_, ?_⟩
  · exact (C7_unmapped_role_behaves_as_employee sampleDB "u1" "superuser"
      (by decide) (by decide) (by decide)).1
  · exact (C7_unmapped_role_behaves_as_employee sampleDB "u1" "superuser"
      (by decide) (by decide) (by decide)).2

/-- C8 (counterexample): the restricted project `p2` is owned by the
employee-role actor `u1`, yet the project list returned to `u1` excludes
it — falsifying the claim that the Employee read scope is the
enterprise-wide projects unioned with the owned restricted ones. -/
theorem C8_counterexample :
    ({ id := "p2", name := "Beta", isEnterpriseWide := false,
       userId := "u1" } : ProjectRow) ∈ sampleDB.projects ∧
    ({ id := "p2", name := "Beta", isEnterpriseWide := false,
       userId := "u1" } : ProjectRow) ∉ getEmployeeProjects sampleDB "u1" ∧
    userRoleOf sampleDB "u1" = "employee" := by
  exact ⟨by decide, by decide, rfl⟩

/-- Conclusion of the amended Employee project-scope claim: the employee
project list is exactly the enterprise-wide projects — owned restricted
projects are not included — and the report filter for a non-privileged
role likewise keeps only enterprise-wide projects. -/
def EmployeeProjectReadScope (st : DB) (uid : String) : Prop :=
  (∀ p : ProjectRow, p ∈ getEmployeeProjects st uid ↔
    p ∈ st.projects ∧ p.isEnterpriseWide = true) ∧
  projectTimeBreakdownConditions st uid = (fun p => p.isEnterpriseWide)

/-- C8 (amended): for an actor resolving to a non-privileged role, the
project read scope is enterprise-wide-only, with no union of owned
restricted projects. -/
theorem C8_employee_scope_enterprise_only (st : DB) (uid : String)
    (h : rolePrivTests (userRoleOf st uid)) :
    EmployeeProjectReadScope st uid := by
  obtain ⟨ha, hp, hm⟩ := h
  have na : ¬ userRoleOf st uid = "admin" := by simpa using ha
  have np : ¬ userRoleOf st uid = "project_manager" := by simpa using hp
  have nm : ¬ userRoleOf st uid = "manager" := by simpa using hm
  constructor
  · intro p
    simp only [getEmployeeProjects]
    rw [mem_orderBy]
    simp
  · simp [projectTimeBreakdownConditions, na, np, nm]

/-- C8 (witness): the amended theorem applied at a concrete input. -/
theorem C8_witness :
    rolePrivTests (userRoleOf sampleDB "u1") ∧
    EmployeeProjectReadScope sampleDB "u1" := by
  refine ⟨⟨rfl, rfl, rfl⟩, ?_⟩
  exact C8_employee_scope_enterprise_only sampleDB "u1" ⟨rfl, rfl, rfl⟩

/-- C9 (confirmed): reading a single project ignores the requesting user:
any two callers receive the same result, and the read succeeds exactly
when a project with that id is stored — every authenticated user can read
every project, restricted ones included. -/
theorem C9_getProject_caller_independent (st : DB) (id u1 u2 : String) :
    getProject st id u1 = getProject st id u2 ∧
    ((getProject st id u1).isSome = true ↔
      st.projects.any (fun p => p.id == id) = true) := by
  constructor
  · rfl
  · simp only [getProject]
    rw [Option.isSome_iff_ne_none, ne_eq, List.head?_eq_none_iff,
      List.filter_eq_nil_iff, List.any_eq_true]
    push_neg
    simp

set_option maxHeartbeats 1000000 in
/-- Every error result of a guarded mutation leaves the state unchanged:
each throw in the source happens before any write. -/
theorem runMutation_error_frame (m : Mutation) (st : DB) (e : String)
    (h : (runMutation m st).1 = .error e) : (runMutation m st).2 = st := by
  cases m with
  | createProject p uid nid now =>
    by_cases ha : userRoleOf st uid = "admin"
    · simp [runMutation, createProject, discardResult, Except.map, ha] at h
    · by_cases hp : userRoleOf st uid = "project_manager"
      · simp [runMutation, createProject, discardResult, Except.map, hp] at h
      · simp [runMutation, createProject, discardResult, ha, hp]
  | updateProject id patch uid now =>
    by_cases ha : userRoleOf st uid = "admin"
    · simp [runMutation, updateProject, discardResult, Except.map, ha] at h
    · by_cases hp : userRoleOf st uid = "project_manager"
      · simp [runMutation, updateProject, discardResult, Except.map, hp] at h
      · simp [runMutation, updateProject, discardResult, ha, hp]
  | deleteProject id uid =>
    by_cases ha : userRoleOf st uid = "admin"
    · simp [runMutation, deleteProject, discardResult, Except.map, ha] at h
    · by_cases hp : userRoleOf st uid = "project_manager"
      · simp [runMutation, deleteProject, discardResult, Except.map, hp] at h
      · simp [runMutation, deleteProject, discardResult, ha, hp]
  | createTask t uid nid now =>
    cases uid with
    | none => simp [runMutation, createTask, discardResult, Except.map] at h
    | some u =>
      by_cases ha : userRoleOf st u = "admin"
      · simp [runMutation, createTask, discardResult, Except.map, ha] at h
      · by_cases hp : userRoleOf st u = "project_manager"
        · simp [runMutation, createTask, discardResult, Except.map, hp] at h
        · simp [runMutation, createTask, discardResult, ha, hp]
  | updateTask id patch uid now =>
    by_cases ha : userRoleOf st uid = "admin"
    · cases hg : getTask st id uid <;>
        simp [runMutation, updateTask, discardResult, Except.map, ha, hg] at h
    · by_cases hp : userRoleOf st uid = "project_manager"
      · cases hg : getTask st id uid <;>
          simp [runMutation, updateTask, discardResult, Except.map, hp, hg] at h
      · simp [runMutation, updateTask, discardResult, ha, hp]
  | deleteTask id uid =>
    by_cases ha : userRoleOf st uid = "admin"
    · cases hg : getTask st id uid <;>
        simp [runMutation, deleteTask, discardResult, Except.map, ha, hg] at h
    · by_cases hp : userRoleOf st uid = "project_manager"
      · cases hg : getTask st id uid <;>
          simp [runMutation, deleteTask, discardResult, Except.map, hp, hg] at h
      · simp [runMutation, deleteTask, discardResult, ha, hp]
  | updateEmployee id patch uid now =>
    by_cases ha : userRoleOf st uid = "admin"
    · simp [runMutation, updateEmployee, discardResult, Except.map, ha] at h
    · by_cases hm : userRoleOf st uid = "manager"
      · simp [runMutation, updateEmployee, discardResult, Except.map, hm] at h
      · simp [runMutation, updateEmployee, discardResult, ha, hm]
  | deleteEmployee id uid =>
    by_cases ha : userRoleOf st uid = "admin"
    · simp [runMutation, deleteEmployee, discardResult, Except.map, ha] at h
    · simp [runMutation, deleteEmployee, discardResult, ha]
  | assignEmployeesToProject pid eids uid nids now =>
    by_cases ha : userRoleOf st uid = "admin"
    · by_cases hpj : ∀ a ∈ st.projects, ¬ a.id = pid
      · simp only [runMutation, assignEmployeesToProject, discardResult, Except.map]
        simp [ha]
        rw [if_pos hpj]
      · by_cases hl : 0 < eids.length <;>
          simp [runMutation, assignEmployeesToProject, discardResult, Except.map, ha, hpj, hl] at h
    · by_cases hp : userRoleOf st uid = "project_manager"
      · by_cases hpj : ∀ a ∈ st.projects, ¬ a.id = pid
        · simp only [runMutation, assignEmployeesToProject, discardResult, Except.map]
          simp [hp]
          rw [if_pos hpj]
        · by_cases hl : 0 < eids.length <;>
            simp [runMutation, assignEmployeesToProject, discardResult, Except.map, hp, hpj, hl] at h
      · simp [runMutation, assignEmployeesToProject, discardResult, ha, hp]
  | removeEmployeeFromProject pid eid uid =>
    by_cases ha : userRoleOf st uid = "admin"
    · simp [runMutation, removeEmployeeFromProject, discardResult, Except.map, ha] at h
    · by_cases hp : userRoleOf st uid = "project_manager"
      · simp [runMutation, removeEmployeeFromProject, discardResult, Except.map, hp] at h
      · simp [runMutation, removeEmployeeFromProject, discardResult, ha, hp]
  | updateOrganization id patch uid now =>
    by_cases ha : userRoleOf st uid = "admin"
    · simp [runMutation, updateOrganization, discardResult, Except.map, ha] at h
    · simp [runMutation, updateOrganization, discardResult, ha]
  | deleteOrganization id uid =>
    by_cases ha : userRoleOf st uid = "admin"
    · simp [runMutation, deleteOrganization, discardResult, Except.map, ha] at h
    · simp [runMutation, deleteOrganization, discardResult, ha]

/-- C10 (confirmed): denial is atomic — whenever a guarded mutation
terminates with an `Insufficient permissions` error, the database state is
unchanged: the role check precedes every write. -/
theorem C10_denial_atomic (m : Mutation) (st : DB)
    (h : deniedInsufficient (runMutation m st).1 = true) :
    (runMutation m st).2 = st := by
  cases hr : (runMutation m st).1 with
  | ok v =>
    rw [hr] at h
    exact absurd h (by simp [deniedInsufficient])
  | error e => exact runMutation_error_frame m st e hr

/-- C10 (witness): the theorem applied at a concrete input — an
employee-role caller attempting `updateProject`. -/
theorem C10_witness :
    deniedInsufficient
      (runMutation (Mutation.updateProject "p1" {} "u1" 7) sampleDB).1 = true ∧
    (runMutation (Mutation.updateProject "p1" {} "u1" 7) sampleDB).2 = sampleDB := by
  exact ⟨by decide,
    C10_denial_atomic (Mutation.updateProject "p1" {} "u1" 7) sampleDB (by decide)⟩

end TimeTracker
